import Mathlib

set_option autoImplicit false

/-
Verification of the Scoot scheduler core against its specification.

The Go sources are shallowly embedded: Go maps become association lists,
byte slices become lists of naturals, a sync.RWMutex write lock becomes a
boolean held-flag (Lock sets it, Unlock clears it; calling Lock while the
flag is set blocks forever, which the embedding expresses by stating
theorems under the precondition that the flag is clear), and fallible Go
calls returning (value, error) become pairs with an Option String error
component (none = nil error).
-/

namespace Scoot

/-- Kinds of saga messages (spec section 3; the Go sagaMessage msgType).
The Go enum lives outside the provided sources; the seven kinds are taken
from the spec's list, which the in-memory log is agnostic to anyway. -/
inductive MsgType where
  | startSaga
  | endSaga
  | abortSaga
  | startTask
  | endTask
  | startCompTask
  | endCompTask
deriving DecidableEq

/-- The Go struct sagaMessage: sagaId, msgType, taskId and a data payload
(a byte slice, modelled as a list of naturals). -/
structure SagaMessage where
  sagaId : String
  msgType : MsgType
  taskId : String
  data : List Nat
deriving DecidableEq

/-- Lookup in a Go map modelled as an association list:
msgs, ok := m[k] with ok = (result is some). -/
def mapLookup {α : Type} (m : List (String × α)) (k : String) : Option α :=
  match m with
  | [] => none
  | (k', v) :: rest => if k' = k then some v else mapLookup rest k

/-- Assignment m[k] = v on a Go map modelled as an association list. -/
def mapInsert {α : Type} (m : List (String × α)) (k : String) (v : α) :
    List (String × α) :=
  match m with
  | [] => [(k, v)]
  | (k', v') :: rest =>
      if k' = k then (k, v) :: rest else (k', v') :: mapInsert rest k v

/-- The Go struct inMemorySagaLog: the sagas map plus the state of its
RWMutex write lock (locked = true when the write lock is held). -/
structure InMemorySagaLog where
  sagas : List (String × List SagaMessage)
  locked : Bool
deriving DecidableEq

/-- Modelled from the spec: StartSagaMessageFactory is referenced by the
in-memory log but defined outside the provided sources; per spec section 3
a StartSaga message carries the jobId and the serialized job blob. -/
def StartSagaMessageFactory (sagaId : String) (job : List Nat) : SagaMessage :=
  { sagaId := sagaId, msgType := .startSaga, taskId := "", data := job }

/-- inMemorySagaLog.LogMessage, embedded faithfully from the Go source:
Lock the mutex; look the saga up; if absent, return an error WITHOUT
unlocking (the source's early return keeps the write lock held); otherwise
append the message, unlock, and return nil error. -/
def LogMessage (log : InMemorySagaLog) (msg : SagaMessage) :
    InMemorySagaLog × Option String :=
  let log1 : InMemorySagaLog := { log with locked := true }
  match mapLookup log1.sagas msg.sagaId with
  | none => (log1, some ("Saga: " ++ msg.sagaId ++ " is not Started yet."))
  | some msgs =>
      ({ sagas := mapInsert log1.sagas msg.sagaId (msgs ++ [msg]),
         locked := false }, none)

/-- inMemorySagaLog.StartSaga, embedded from the Go source: lock,
unconditionally set the saga's entry to the single-element sequence
holding its StartSaga message, unlock, return nil error. -/
def StartSaga (log : InMemorySagaLog) (sagaId : String) (job : List Nat) :
    InMemorySagaLog × Option String :=
  let startMsg := StartSagaMessageFactory sagaId job
  ({ sagas := mapInsert log.sagas sagaId [startMsg], locked := false }, none)

/-- inMemorySagaLog.GetMessages, embedded from the Go source: read-lock,
look the saga up, read-unlock; return (msgs, nil) when present and
(nil, nil) when absent. The write-lock flag is untouched. -/
def GetMessages (log : InMemorySagaLog) (sagaId : String) :
    Option (List SagaMessage) × Option String :=
  match mapLookup log.sagas sagaId with
  | some msgs => (some msgs, none)
  | none => (none, none)

/-
Cluster view (src/cloud/cluster/cluster.go).

Cluster.Close runs in the caller's goroutine:
  for _, s := range c.subs { c.handleReq(s) }
  c.subs = nil
  close(c.reqCh)
handleReq, on a subscription channel, removes it from c.subs with
  c.subs = append(c.subs[0:i], c.subs[i+1:]...)
and closes it. The append writes into the SAME backing array the range
statement is iterating over, so the embedding models the slice explicitly:
a backing array (whose length never changes) plus the slice length.
Channels are identified by distinct naturals; closing is recorded in a
list in close order.
-/

/-- The c.subs slice of a Cluster plus the set of closed subscriber
channels: c.subs = backing.take len, and cap(c.subs) = backing.length. -/
structure ClusterSubs where
  backing : List Nat
  len : Nat
  closed : List Nat
deriving DecidableEq

/-- Index of the first occurrence of req in the current c.subs slice
(the loop "for i, sub := range c.subs ... break" in handleReq). -/
def subsIndex (subs : List Nat) (req : Nat) : Option Nat :=
  match subs with
  | [] => none
  | x :: rest => if x = req then some 0 else (subsIndex rest req).map (· + 1)

/-- Cluster.handleReq for the close-of-subscription case, embedded from
the Go source: find req in c.subs; if found, shift the later elements one
slot left IN THE SHARED BACKING ARRAY (Go append into subs[0:i]),
decrement the slice length, and close req; if absent, do nothing. -/
def handleReqClose (st : ClusterSubs) (req : Nat) : ClusterSubs :=
  match subsIndex (st.backing.take st.len) req with
  | none => st
  | some i =>
      { backing :=
          st.backing.take i ++ (st.backing.drop (i + 1)).take (st.len - 1 - i)
            ++ st.backing.drop (st.len - 1),
        len := st.len - 1,
        closed := st.closed ++ [req] }

/-- Cluster.Close, embedded from the Go source. The range statement
captures the slice header (backing pointer and length n) once; each
iteration i reads element i of the MUTATED backing array and passes it to
handleReq. Afterwards c.subs = nil (len 0; reqCh closing not modelled). -/
def clusterClose (st : ClusterSubs) : ClusterSubs :=
  let final :=
    (List.range st.len).foldl (fun s i => handleReqClose s (s.backing.getD i 0)) st
  { final with len := 0 }

/-
Cluster view pub/sub on ingest (Cluster.loop in src/cloud/cluster/cluster.go).

The loop receives either a []NodeUpdate batch or a []Node snapshot on the
tagged input channel, computes the outgoing delta via
State.FilterAndUpdate / State.SetAndDiff, and sends that one delta to
every subscriber channel in c.subs order; c.subs is appended to on
Subscribe, hence is in registration order.

State.FilterAndUpdate and State.SetAndDiff live in a source file not
provided; they are modelled from the spec (section 4.3). A Node is
reduced to its NodeId (its metadata plays no role in membership or in the
delta's ordering, which is lexicographic on NodeId).
-/

/-- NodeUpdate: Added(Node) or Removed(NodeId), a Node reduced to its id. -/
inductive NodeUpdate where
  | added (node : String)
  | removed (id : String)
deriving DecidableEq

/-- Modelled from the spec: applying one NodeUpdate to the node set —
insert on Added-not-present, remove on Removed-present, otherwise no-op. -/
def applyUpdate (nodes : List String) (u : NodeUpdate) : List String :=
  match u with
  | .added n => if n ∈ nodes then nodes else n :: nodes
  | .removed id => nodes.erase id

/-- Modelled from the spec: the delta between an old and a new node set,
ordered removals then additions, each lexicographically by NodeId. -/
def computeDelta (old new : List String) : List NodeUpdate :=
  (((old.filter (fun x => !(new.contains x))).insertionSort (· ≤ ·)).map NodeUpdate.removed)
    ++ (((new.filter (fun x => !(old.contains x))).insertionSort (· ≤ ·)).map NodeUpdate.added)

/-- Modelled from the spec: State.FilterAndUpdate — apply an incremental
batch and return the new set together with the emitted delta. -/
def FilterAndUpdate (st : List String) (ups : List NodeUpdate) :
    List String × List NodeUpdate :=
  let new := ups.foldl applyUpdate st
  (new, computeDelta st new)

/-- Modelled from the spec: State.SetAndDiff — replace the node set by a
full snapshot (set semantics) and return the new set with the delta. -/
def SetAndDiff (st : List String) (nodes : List String) :
    List String × List NodeUpdate :=
  let new := nodes.dedup
  (new, computeDelta st new)

/-- One item on the Cluster's tagged ingest channel: either a
[]NodeUpdate batch or a []Node full snapshot. -/
inductive Ingest where
  | updates (us : List NodeUpdate)
  | snapshot (ns : List String)

/-- One iteration of Cluster.loop on an ingest: the new state and the
outgoing delta. -/
def ingestStep (st : List String) (ing : Ingest) : List String × List NodeUpdate :=
  match ing with
  | .updates us => FilterAndUpdate st us
  | .snapshot ns => SetAndDiff st ns

/-- The sequence of deltas Cluster.loop computes for a sequence of
ingests, in ingest order. -/
def deltasFrom (st : List String) : List Ingest → List (List NodeUpdate)
  | [] => []
  | ing :: rest =>
      (ingestStep st ing).2 :: deltasFrom (ingestStep st ing).1 rest

/-- Cluster.loop's emission trace, embedded from the Go source: for each
ingest in arrival order, the computed delta is sent to each subscriber in
c.subs order (= registration order); sends are listed in send order. -/
def clusterRun (subs : List Nat) (st : List String) :
    List Ingest → List (Nat × List NodeUpdate)
  | [] => []
  | ing :: rest =>
      subs.map (fun s => (s, (ingestStep st ing).2))
        ++ clusterRun subs (ingestStep st ing).1 rest

/-- The stream of deltas a given subscriber receives from an emission
trace, in send order. -/
def receivedBy (s : Nat) (tr : List (Nat × List NodeUpdate)) :
    List (List NodeUpdate) :=
  (tr.filter (fun p => p.1 == s)).map Prod.snd

/-- A delta is ordered as the spec requires: all removals first, then all
additions, each block sorted lexicographically by NodeId. -/
def DeltaOrdered (d : List NodeUpdate) : Prop :=
  ∃ rs addns : List String,
    d = rs.map NodeUpdate.removed ++ addns.map NodeUpdate.added
    ∧ rs.Sorted (· ≤ ·) ∧ addns.Sorted (· ≤ ·)

/-
Worker server handler (the server package in the same concatenated source
file as cluster.go). handler.Run calls the underlying runner.Service,
and on a QueueFull error whose command argv equals the currently-active
command's argv it answers with the live status of the current RunID.
The runner.Service itself is not among the provided sources; it is
modelled from the spec (section 4.4).
-/

/-- The states of a run (spec section 4.4 plus the UNKNOWN and BADREQUEST
values the handler assigns). -/
inductive RunState where
  | unknown
  | pending
  | preparing
  | running
  | complete
  | failed
  | aborted
  | timedout
  | badrequest
deriving DecidableEq

/-- Modelled from the spec: IsDone is true for the four terminal states. -/
def RunState.isDone : RunState → Bool
  | .complete => true
  | .failed => true
  | .aborted => true
  | .timedout => true
  | _ => false

/-- runner.RunStatus, reduced to the fields handler.Run touches: RunID,
State and Error. -/
structure RunStatus where
  runID : Nat
  state : RunState
  error : String
deriving DecidableEq

/-- The zero value of runner.RunStatus, which a failed runner call leaves
in the status variable. -/
def zeroRunStatus : RunStatus :=
  { runID := 0, state := .unknown, error := "" }

/-- The runners.QueueFullMsg sentinel string the handler compares error
text against (its exact wording is immaterial to the comparison). -/
def QueueFullMsg : String := "queue is full"

/-- A worker command, reduced to the argv the duplicate-retry comparison
reads (reflect.DeepEqual(c.Argv, h.currentCmd.Argv)). -/
structure Command where
  argv : List String
deriving DecidableEq

/-- Modelled from the spec: the runner.Service state — its cached runs
keyed by RunID, plus the next fresh RunID. -/
structure RunnerSvc where
  runs : List (Nat × RunStatus)
  nextID : Nat
deriving DecidableEq

/-- A runner has an active (non-terminal) run. -/
def RunnerSvc.hasActive (r : RunnerSvc) : Bool :=
  r.runs.any (fun p => !p.2.state.isDone)

/-- Modelled from the spec: runner.Service.Run — a worker runs at most
one active command; while any run is non-terminal a new Run returns
QueueFull and creates no run, otherwise a fresh pending run is created.
Result: (new runner state, status, error). -/
def runnerRun (r : RunnerSvc) (_ : Command) :
    RunnerSvc × RunStatus × Option String :=
  if r.hasActive then (r, zeroRunStatus, some QueueFullMsg)
  else
    let st : RunStatus := { runID := r.nextID, state := .pending, error := "" }
    ({ runs := r.runs ++ [(r.nextID, st)], nextID := r.nextID + 1 }, st, none)

/-- Modelled from the spec: runner.Service.Status — serve the cached
status of the given RunID, an error when the id is unknown. -/
def runnerStatus (r : RunnerSvc) (id : Nat) : RunStatus × Option String :=
  match r.runs.find? (fun p => p.1 == id) with
  | some p => (p.2, none)
  | none => (zeroRunStatus, some "unknown run id")

/-- The RunIDs a runner holds. -/
def runIDs (r : RunnerSvc) : List Nat :=
  r.runs.map Prod.fst

/-- The handler struct fields handler.Run reads and writes. -/
structure Handler where
  currentCmd : Option Command
  currentRunID : Nat
deriving DecidableEq

/-- handler.Run, embedded from the Go source. Returns none when the Go
code panics: on a QueueFull error the condition
reflect.DeepEqual(c.Argv, h.currentCmd.Argv) dereferences h.currentCmd,
which is nil when no prior Run has succeeded. Otherwise returns the new
handler state, the new runner state, and the returned status (an error
from the runner is folded into the status as State = BADREQUEST, as the
source does before answering). -/
def handlerRun (h : Handler) (r : RunnerSvc) (cmd : Command) :
    Option (Handler × RunnerSvc × RunStatus) :=
  let res := runnerRun r cmd
  let r1 := res.1
  let status0 := res.2.1
  match res.2.2 with
  | none =>
      some ({ currentCmd := some cmd, currentRunID := status0.runID }, r1, status0)
  | some e =>
      if e = QueueFullMsg then
        match h.currentCmd with
        | none => none
        | some c0 =>
            if cmd.argv = c0.argv then
              let sres := runnerStatus r1 h.currentRunID
              match sres.2 with
              | none =>
                  some ({ currentCmd := some cmd, currentRunID := sres.1.runID },
                    r1, sres.1)
              | some e2 =>
                  some (h, r1, { sres.1 with error := e2, state := .badrequest })
            else
              some (h, r1, { status0 with error := e, state := .badrequest })
      else
        some (h, r1, { status0 with error := e, state := .badrequest })

/-
Bazel Execution API façade (src/bazel/execution/service.go).

executionServer.Execute converts the request into a Scoot job, validates
and schedules it, then immediately builds a longrunning Operation with
Done = true holding an ExecuteResponse whose ActionResult has ExitCode 0.
The helpers it calls from other packages (GetSha256, IsValidDigest,
ParseDuration, DigestSnapshotID, time.Now, ValidateJob, ScheduleJob,
MarshalAny) are outside the provided sources and enter the embedding as
oracle fields of an environment record; the in-source control flow —
the chain of early error returns and the construction of the returned
Operation — is embedded faithfully.
-/

/-- A Bazel content digest. -/
structure Digest where
  hash : String
  sizeBytes : Int
deriving DecidableEq

/-- The fields of the request Action that Execute reads. -/
structure BzAction where
  commandDigest : Digest
  inputRootDigest : Digest
  timeoutMs : Int
deriving DecidableEq

/-- A Bazel ExecuteRequest, reduced to its Action. -/
structure BzExecuteRequest where
  action : BzAction
deriving DecidableEq

/-- Job priorities (sched package). -/
inductive Priority where
  | p0
  | p1
  | p2
  | p3
deriving DecidableEq

/-- The command of a scheduled task (sched.thrift Command). -/
structure TaskCommand where
  argv : List String
  timeoutMs : Int
  snapshotID : String
deriving DecidableEq

/-- sched.thrift TaskDefinition, reduced to the fields Execute fills. -/
structure TaskDefinition where
  taskID : String
  command : TaskCommand
deriving DecidableEq

/-- sched.thrift JobDefinition, reduced to the fields Execute fills. -/
structure JobDefinition where
  priority : Priority
  tasks : List TaskDefinition
deriving DecidableEq

/-- The stage recorded in ExecuteOperationMetadata. -/
inductive ExecStage where
  | unknown
  | completed
deriving DecidableEq

/-- remoteexecution.ExecuteOperationMetadata, as Execute builds it. -/
structure ExecuteOperationMetadata where
  stage : ExecStage
  actionDigest : Digest
deriving DecidableEq

/-- remoteexecution.ActionResult, reduced to the ExitCode field. -/
structure ActionResult where
  exitCode : Int
deriving DecidableEq

/-- remoteexecution.ExecuteResponse as Execute builds it. -/
structure BzExecuteResponse where
  result : ActionResult
  cachedResult : Bool
deriving DecidableEq

/-- A longrunning Operation with the embedded (un-marshalled) metadata
and response payloads. -/
structure Operation where
  name : String
  done : Bool
  metadata : Option ExecuteOperationMetadata
  response : Option BzExecuteResponse
deriving DecidableEq

/-- The out-of-source collaborators of Execute, as oracles: each field
gives the result the external call would return. -/
structure ExecEnv where
  getSha : BzExecuteRequest → Except String (String × Int)
  isValidDigest : Digest → Bool
  parseDuration : Int → Except String Int
  digestSnapshotID : Digest → String
  nowUnix : Int
  validateJob : JobDefinition → Option String
  scheduleJob : JobDefinition → Except String String
  marshalEomOk : Bool
  marshalResOk : Bool

/-- validateExecRequest, embedded from the Go source: both the command
digest and the input root digest must be valid. -/
def validateExecRequest (env : ExecEnv) (req : BzExecuteRequest) : Option String :=
  if !(env.isValidDigest req.action.commandDigest) then
    some "Request action command digest is invalid"
  else if !(env.isValidDigest req.action.inputRootDigest) then
    some "Request action input root digest is invalid"
  else none

/-- execReqToScoot, embedded from the Go source: validate the request,
parse the timeout, and build a single-task P0 job whose command argv is
the BZ_PLACEHOLDER and whose snapshot id is derived from the input root
digest. -/
def execReqToScoot (env : ExecEnv) (req : BzExecuteRequest) (actionSha : String) :
    Except String JobDefinition :=
  match validateExecRequest env req with
  | some e => .error e
  | none =>
      match env.parseDuration req.action.timeoutMs with
      | .error e => .error e
      | .ok d =>
          .ok { priority := .p0,
                tasks := [{ taskID := "Bazel_ExecuteRequest_" ++ actionSha ++ "_"
                              ++ toString env.nowUnix,
                            command := { argv := ["BZ_PLACEHOLDER"],
                                         timeoutMs := d,
                                         snapshotID := env.digestSnapshotID
                                           req.action.inputRootDigest } }] }

/-- executionServer.Execute, embedded from the Go source: the chain of
early error returns (digest of the action, request conversion, job
validation, scheduling, the two MarshalAny calls) followed by the
construction of the returned Operation: Done = true, metadata stage
COMPLETED, and an ExecuteResponse whose ActionResult has ExitCode 0 —
built immediately after ScheduleJob returns, before any task runs. -/
def executeModel (env : ExecEnv) (req : BzExecuteRequest) : Except String Operation :=
  match env.getSha req with
  | .error e => .error ("Error serializing action: " ++ e)
  | .ok shaLen =>
      match execReqToScoot env req shaLen.1 with
      | .error e => .error ("Error converting request to internal definition: " ++ e)
      | .ok job =>
          match env.validateJob job with
          | some e => .error ("Internal job definition invalid: " ++ e)
          | none =>
              match env.scheduleJob job with
              | .error e => .error ("Failed to schedule Scoot job: " ++ e)
              | .ok id =>
                  if !env.marshalEomOk then .error "Failed to marshal metadata"
                  else if !env.marshalResOk then .error "Failed to marshal response"
                  else
                    .ok { name := "operations/" ++ id,
                          done := true,
                          metadata := some { stage := .completed,
                                             actionDigest := { hash := shaLen.1,
                                                               sizeBytes := shaLen.2 } },
                          response := some { result := { exitCode := 0 },
                                             cachedResult := false } }

/-
CAS server (src/unnamed/part_001, package cas).

casServer.FindMissingBlobs walks the requested digests; a digest whose
hash is the empty SHA is skipped (never reported missing); any other
digest is checked against the store — a store error aborts the whole
call, an absent blob is appended to MissingBlobDigests in request order.
bazel.EmptySha, bazel.DigestStoreName and the Store are outside the
provided sources and enter as oracle fields of an environment record.
-/

/-- The out-of-source collaborators of FindMissingBlobs: the EmptySha
constant, the digest-to-store-name mapping, and the store's Exists. -/
structure CasEnv where
  emptySha : String
  storeName : Digest → String
  storeExists : String → Except String Bool

/-- casServer.FindMissingBlobs, embedded from the Go source loop. -/
def findMissingBlobs (env : CasEnv) : List Digest → Except String (List Digest)
  | [] => .ok []
  | d :: rest =>
      if d.hash = env.emptySha then findMissingBlobs env rest
      else
        match env.storeExists (env.storeName d) with
        | .error e => .error ("Store failed checking existence: " ++ e)
        | .ok true => findMissingBlobs env rest
        | .ok false => (findMissingBlobs env rest).map (fun l => d :: l)

/-- A concrete Execute environment in which every external call succeeds,
used to witness the Execute theorem. -/
def c9Env : ExecEnv :=
  { getSha := fun _ => .ok ("abc", 3),
    isValidDigest := fun _ => true,
    parseDuration := fun n => .ok n,
    digestSnapshotID := fun d => "bz-" ++ d.hash,
    nowUnix := 0,
    validateJob := fun _ => none,
    scheduleJob := fun _ => .ok "job1",
    marshalEomOk := true,
    marshalResOk := true }

/-- A concrete ExecuteRequest used to witness the Execute theorem. -/
def c9Req : BzExecuteRequest :=
  { action := { commandDigest := { hash := "c", sizeBytes := 1 },
                inputRootDigest := { hash := "i", sizeBytes := 1 },
                timeoutMs := 5 } }

/-- The Operation Execute returns on c9Env and c9Req. -/
def c9Op : Operation :=
  { name := "operations/job1",
    done := true,
    metadata := some { stage := .completed,
                       actionDigest := { hash := "abc", sizeBytes := 3 } },
    response := some { result := { exitCode := 0 }, cachedResult := false } }

/-- A concrete CAS environment: store name is the digest hash, and only
the blob named "present" exists in the store. -/
def c10Env : CasEnv :=
  { emptySha := "EMPTY",
    storeName := fun d => d.hash,
    storeExists := fun s => if s = "present" then .ok true else .ok false }

/-- A concrete FindMissingBlobs request: an empty-SHA digest (absent from
the store), a present digest, and an absent digest. -/
def c10Ds : List Digest :=
  [{ hash := "EMPTY", sizeBytes := 0 },
   { hash := "present", sizeBytes := 1 },
   { hash := "absent", sizeBytes := 2 }]

end Scoot

namespace Scoot

/-- Every delta computeDelta produces has the spec's shape: removals then
additions, each block sorted lexicographically. -/
theorem deltaOrdered_computeDelta (old new : List String) :
    DeltaOrdered (computeDelta old new) :=
  ⟨(old.filter (fun x => !(new.contains x))).insertionSort (· ≤ ·),
   (new.filter (fun x => !(old.contains x))).insertionSort (· ≤ ·),
   rfl, List.sorted_insertionSort _ _, List.sorted_insertionSort _ _⟩

/-- Filtering a one-delta-per-subscriber broadcast down to one subscriber
yields exactly one copy of the delta, provided subscribers are distinct. -/
theorem filter_broadcast_eq (subs : List Nat) (s : Nat) (d : List NodeUpdate)
    (hnd : subs.Nodup) (hs : s ∈ subs) :
    (subs.map (fun c => (c, d))).filter (fun p => p.1 == s) = [(s, d)] := by
  induction subs with
  | nil => cases hs
  | cons a rest ih =>
      rcases List.mem_cons.mp hs with h | h
      · subst h
        have hnotin : s ∉ rest := (List.nodup_cons.mp hnd).1
        have hrest : (rest.map (fun c => (c, d))).filter (fun p => p.1 == s) = [] := by
          apply List.filter_eq_nil_iff.mpr
          intro p hp
          rcases List.mem_map.mp hp with ⟨c, hc, rfl⟩
          simp only [beq_iff_eq]
          intro hcs
          exact hnotin (by simpa [hcs] using hc)
        simp [hrest]
      · have hna : (a == s) = false := by
          simp only [beq_eq_false_iff_ne]
          rintro rfl
          exact (List.nodup_cons.mp hnd).1 h
        have hrec := ih (List.nodup_cons.mp hnd).2 h
        simp [List.filter, hna, hrec]

/-- Claim C1, counterexample: in the in-memory saga log, a LogMessage call
on a saga whose stored sequence already contains an EndSaga message does
NOT return an error and does NOT leave the stored sequence unchanged: the
message is appended and the returned error is nil. -/
theorem C1_counterexample :
    (LogMessage
        { sagas := [("j", [StartSagaMessageFactory "j" [],
            { sagaId := "j", msgType := .endSaga, taskId := "", data := [] }])],
          locked := false }
        { sagaId := "j", msgType := .startTask, taskId := "t", data := [] }).2
      = none ∧
    mapLookup
      (LogMessage
          { sagas := [("j", [StartSagaMessageFactory "j" [],
              { sagaId := "j", msgType := .endSaga, taskId := "", data := [] }])],
            locked := false }
          { sagaId := "j", msgType := .startTask, taskId := "t", data := [] }).1.sagas
      "j"
      = some [StartSagaMessageFactory "j" [],
          { sagaId := "j", msgType := .endSaga, taskId := "", data := [] },
          { sagaId := "j", msgType := .startTask, taskId := "t", data := [] }] := by
  constructor
  · rfl
  · rfl

/-- Claim C1, amended: the in-memory log's LogMessage performs no
invariant validation. It returns an error exactly when the saga has not
been started, leaving the map unchanged; for any started saga — including
one whose sequence already contains EndSaga — it appends the message to
the stored sequence and returns nil error. -/
theorem C1_amended (log : InMemorySagaLog) (msg : SagaMessage) :
    (mapLookup log.sagas msg.sagaId = none →
      (LogMessage log msg).2.isSome = true ∧
      (LogMessage log msg).1.sagas = log.sagas) ∧
    (∀ msgs, mapLookup log.sagas msg.sagaId = some msgs →
      (LogMessage log msg).2 = none ∧
      mapLookup (LogMessage log msg).1.sagas msg.sagaId = some (msgs ++ [msg])) := by
  have happ : ∀ (m : List (String × List SagaMessage)) (k : String) (v : List SagaMessage),
      mapLookup (mapInsert m k v) k = some v := by
    intro m k v
    induction m with
    | nil => simp [mapInsert, mapLookup]
    | cons hd tl ih =>
        by_cases h : hd.1 = k
        · simp [mapInsert, mapLookup, h]
        · simp [mapInsert, mapLookup, h, ih]
  constructor
  · intro hnone
    simp [LogMessage, hnone]
  · intro msgs hsome
    simp [LogMessage, hsome, happ]

/-- Witness for C1_amended at a concrete started saga. -/
theorem C1_amended_witness :
    (LogMessage { sagas := [("j", [StartSagaMessageFactory "j" []])], locked := false }
        { sagaId := "j", msgType := .startTask, taskId := "t", data := [] }).2 = none ∧
    mapLookup
      (LogMessage { sagas := [("j", [StartSagaMessageFactory "j" []])], locked := false }
          { sagaId := "j", msgType := .startTask, taskId := "t", data := [] }).1.sagas
      "j"
      = some ([StartSagaMessageFactory "j" []] ++
          [{ sagaId := "j", msgType := .startTask, taskId := "t", data := [] }]) :=
  (C1_amended
      { sagas := [("j", [StartSagaMessageFactory "j" []])], locked := false }
      { sagaId := "j", msgType := .startTask, taskId := "t", data := [] }).2
    [StartSagaMessageFactory "j" []] (by rfl)

/-- Claim C2, counterexample: StartSaga repeated with the identical jobId
and blob returns ok but does NOT leave the stored sequence unchanged: a
message logged between the two calls is erased, the sequence being reset
to the single StartSaga record. -/
theorem C2_counterexample :
    (StartSaga
        (LogMessage (StartSaga { sagas := [], locked := false } "j" [1]).1
            { sagaId := "j", msgType := .startTask, taskId := "t", data := [] }).1
        "j" [1]).2 = none ∧
    mapLookup
      (LogMessage (StartSaga { sagas := [], locked := false } "j" [1]).1
          { sagaId := "j", msgType := .startTask, taskId := "t", data := [] }).1.sagas
      "j"
      = some [StartSagaMessageFactory "j" [1],
          { sagaId := "j", msgType := .startTask, taskId := "t", data := [] }] ∧
    mapLookup
      (StartSaga
          (LogMessage (StartSaga { sagas := [], locked := false } "j" [1]).1
              { sagaId := "j", msgType := .startTask, taskId := "t", data := [] }).1
          "j" [1]).1.sagas
      "j"
      = some [StartSagaMessageFactory "j" [1]] := by
  refine ⟨rfl, rfl, rfl⟩

/-- Claim C2, amended: StartSaga always returns ok, but a repeated call
(same jobId, same blob) resets the saga's stored sequence to exactly the
single StartSaga record, erasing any messages appended between the calls. -/
theorem C2_amended (log : InMemorySagaLog) (sagaId : String) (job : List Nat) :
    (StartSaga log sagaId job).2 = none ∧
    mapLookup (StartSaga log sagaId job).1.sagas sagaId
      = some [StartSagaMessageFactory sagaId job] := by
  have happ : ∀ (m : List (String × List SagaMessage)) (k : String) (v : List SagaMessage),
      mapLookup (mapInsert m k v) k = some v := by
    intro m k v
    induction m with
    | nil => simp [mapInsert, mapLookup]
    | cons hd tl ih =>
        by_cases h : hd.1 = k
        · simp [mapInsert, mapLookup, h]
        · simp [mapInsert, mapLookup, h, ih]
  exact ⟨rfl, happ _ _ _⟩

/-- Claim C5, counterexample: GetMessages on a jobId whose saga was never
started returns a nil error (and a nil sequence), not Err(NotFound). -/
theorem C5_counterexample :
    GetMessages { sagas := [], locked := false } "nope" = (none, none) := by
  rfl

/-- Claim C5, amended: GetMessages on an unstarted jobId returns
(nil, nil) — no sequence and no error, indistinguishable from an error
only by the nil sequence; on a started saga it returns the full stored
sequence (which the log maintains in append order) with nil error. -/
theorem C5_amended (log : InMemorySagaLog) (sagaId : String) :
    (mapLookup log.sagas sagaId = none →
      GetMessages log sagaId = (none, none)) ∧
    (∀ msgs, mapLookup log.sagas sagaId = some msgs →
      GetMessages log sagaId = (some msgs, none)) := by
  constructor
  · intro hnone
    unfold GetMessages
    simp [hnone]
  · intro msgs hsome
    unfold GetMessages
    simp [hsome]

/-- Witness for C5_amended at a concrete log: both the unstarted and the
started branch, each discharged at an explicit input. -/
theorem C5_amended_witness :
    GetMessages { sagas := [], locked := false } "nope" = (none, none) ∧
    GetMessages { sagas := [("j", [StartSagaMessageFactory "j" []])], locked := false } "j"
      = (some [StartSagaMessageFactory "j" []], none) :=
  ⟨(C5_amended { sagas := [], locked := false } "nope").1 (by rfl),
   (C5_amended { sagas := [("j", [StartSagaMessageFactory "j" []])], locked := false } "j").2
     [StartSagaMessageFactory "j" []] (by rfl)⟩

/-- Claim C7: the failing exit of LogMessage does NOT release the write
lock. Evaluated at the failing input (a message for an unstarted saga,
starting from a free lock): the call errors and leaves the mutex held, so
any subsequent StartSaga, LogMessage or GetMessages would block forever
on acquiring it. This contradicts the claim that every exit path releases
the lock; the spec itself flags this source defect. -/
theorem C7_lock_leak :
    ((LogMessage { sagas := [], locked := false }
        { sagaId := "j", msgType := .startTask, taskId := "t", data := [] }).2).isSome
      = true ∧
    (LogMessage { sagas := [], locked := false }
        { sagaId := "j", msgType := .startTask, taskId := "t", data := [] }).1.locked
      = true ∧
    (LogMessage { sagas := [("j", [StartSagaMessageFactory "j" []])], locked := false }
        { sagaId := "j", msgType := .startTask, taskId := "t", data := [] }).1.locked
      = false := by
  refine ⟨rfl, rfl, rfl⟩

/-- Claim C4: Cluster.Close does NOT close every subscriber channel
registered at the time of the call. Evaluated at the failing input of
three registered subscriber channels 1, 2, 3: because handleReq removes
the element from c.subs by shifting the shared backing array while Close
is still ranging over the captured slice header, Close closes channels 1
and 3 only — channel 2 is skipped and is never closed (Close also sets
c.subs to nil, so the loop's final close-all pass cannot reach it). -/
theorem C4_close_skips_second_subscriber :
    (({ backing := [1, 2, 3], len := 3, closed := [] } : ClusterSubs).backing.take
        ({ backing := [1, 2, 3], len := 3, closed := [] } : ClusterSubs).len
      = [1, 2, 3]) ∧
    (clusterClose { backing := [1, 2, 3], len := 3, closed := [] }).closed = [1, 3] ∧
    2 ∉ (clusterClose { backing := [1, 2, 3], len := 3, closed := [] }).closed := by
  refine ⟨by decide, by decide, by decide⟩

/-- Claim C6: on each ingest, Cluster.loop delivers the single computed
delta to every subscriber in registration order (the emission trace is
exactly: for each ingest in order, one send per subscriber in c.subs
order), every emitted delta is ordered removals-then-additions with each
block sorted lexicographically by NodeId, and consequently every
registered subscriber receives exactly the delta sequence in ingest
order — a total order consistent with the ingest order at the view.
FilterAndUpdate/SetAndDiff are modelled from the spec (their source file
is not part of the provided excerpt). -/
theorem C6_ingest_broadcast (subs : List Nat) (st : List String)
    (ingests : List Ingest) (s : Nat) (hnd : subs.Nodup) (hs : s ∈ subs) :
    clusterRun subs st ingests
      = (deltasFrom st ingests).flatMap (fun d => subs.map (fun c => (c, d))) ∧
    (∀ d ∈ deltasFrom st ingests, DeltaOrdered d) ∧
    receivedBy s (clusterRun subs st ingests) = deltasFrom st ingests := by
  refine ⟨?_, ?_, ?_⟩
  · induction ingests generalizing st with
    | nil => rfl
    | cons ing rest ih => simp [clusterRun, deltasFrom, ih]
  · induction ingests generalizing st with
    | nil => intro d hd; cases hd
    | cons ing rest ih =>
        intro d hd
        rcases List.mem_cons.mp hd with h | h
        · subst h
          cases ing with
          | updates us => exact deltaOrdered_computeDelta _ _
          | snapshot ns => exact deltaOrdered_computeDelta _ _
        · exact ih _ _ h
  · induction ingests generalizing st with
    | nil => rfl
    | cons ing rest ih =>
        have hfb := filter_broadcast_eq subs s (ingestStep st ing).2 hnd hs
        simp [clusterRun, deltasFrom, receivedBy, List.filter_append, hfb,
          receivedBy] at ih ⊢
        exact ih _

/-- Witness for C6_ingest_broadcast: two subscribers, one update batch
followed by a snapshot, checked for subscriber 2. -/
theorem C6_ingest_broadcast_witness :
    clusterRun [1, 2] ["b"]
        [Ingest.updates [NodeUpdate.added "a", NodeUpdate.removed "b"],
         Ingest.snapshot ["c"]]
      = (deltasFrom ["b"]
          [Ingest.updates [NodeUpdate.added "a", NodeUpdate.removed "b"],
           Ingest.snapshot ["c"]]).flatMap (fun d => [1, 2].map (fun c => (c, d))) ∧
    (∀ d ∈ deltasFrom ["b"]
        [Ingest.updates [NodeUpdate.added "a", NodeUpdate.removed "b"],
         Ingest.snapshot ["c"]], DeltaOrdered d) ∧
    receivedBy 2 (clusterRun [1, 2] ["b"]
        [Ingest.updates [NodeUpdate.added "a", NodeUpdate.removed "b"],
         Ingest.snapshot ["c"]])
      = deltasFrom ["b"]
          [Ingest.updates [NodeUpdate.added "a", NodeUpdate.removed "b"],
           Ingest.snapshot ["c"]] :=
  C6_ingest_broadcast [1, 2] ["b"]
    [Ingest.updates [NodeUpdate.added "a", NodeUpdate.removed "b"],
     Ingest.snapshot ["c"]] 2 (by decide) (by decide)

/-- Claim C3: when the runner answers handler.Run with QueueFull and the
new command's argv equals the currently-active command's argv, the
handler answers with the live RunStatus cached for the current RunID —
not an error status — and the runner state it hands back is unchanged,
so the worker's set of RunIDs grows by 0. -/
theorem C3_queuefull_dup_returns_live_status (h : Handler) (r : RunnerSvc)
    (cmd c0 : Command) (st : RunStatus)
    (hc : h.currentCmd = some c0)
    (hargv : cmd.argv = c0.argv)
    (hfull : r.hasActive = true)
    (hlive : r.runs.find? (fun p => p.1 == h.currentRunID)
      = some (h.currentRunID, st)) :
    handlerRun h r cmd
      = some ({ currentCmd := some cmd, currentRunID := st.runID }, r, st) ∧
    ∀ h' r' st', handlerRun h r cmd = some (h', r', st') →
      runIDs r' = runIDs r ∧ st' = st := by
  have hmain : handlerRun h r cmd
      = some ({ currentCmd := some cmd, currentRunID := st.runID }, r, st) := by
    simp [handlerRun, runnerRun, runnerStatus, hfull, hc, hargv, hlive]
  refine ⟨hmain, ?_⟩
  intro h' r' st' heq
  rw [hmain] at heq
  have h2 := Option.some.inj heq
  cases h2
  exact ⟨rfl, rfl⟩

/-- Witness for C3_queuefull_dup_returns_live_status: a handler whose
current command is running as RunID 7, retried with an equal-argv
command while the runner's queue is full. -/
theorem C3_queuefull_dup_witness :
    handlerRun { currentCmd := some { argv := ["echo", "hi"] }, currentRunID := 7 }
        { runs := [(7, { runID := 7, state := .running, error := "" })], nextID := 8 }
        { argv := ["echo", "hi"] }
      = some ({ currentCmd := some { argv := ["echo", "hi"] }, currentRunID := 7 },
          { runs := [(7, { runID := 7, state := .running, error := "" })], nextID := 8 },
          { runID := 7, state := .running, error := "" }) :=
  (C3_queuefull_dup_returns_live_status
      { currentCmd := some { argv := ["echo", "hi"] }, currentRunID := 7 }
      { runs := [(7, { runID := 7, state := .running, error := "" })], nextID := 8 }
      { argv := ["echo", "hi"] } { argv := ["echo", "hi"] }
      { runID := 7, state := .running, error := "" }
      rfl rfl (by decide) (by decide)).1

/-- Claim C8: handler.Run is NOT total. Evaluated at the failing input —
a handler with no prior successful Run (currentCmd is nil) whose runner
reports QueueFull — the duplicate-retry check dereferences
h.currentCmd.Argv on a nil pointer and the Go code panics (modelled as
the none result) instead of returning a status. -/
theorem C8_nil_currentCmd_panics :
    handlerRun { currentCmd := none, currentRunID := 0 }
        { runs := [(3, { runID := 3, state := .running, error := "" })], nextID := 4 }
        { argv := ["echo"] }
      = none := by
  decide

/-- Claim C9: every successful Execute call returns a longrunning
Operation with Done = true whose embedded ExecuteResponse carries an
ActionResult with ExitCode 0 — for every environment (in particular for
every outcome the scheduled job may later have, which the returned value
does not depend on) and every request. -/
theorem C9_execute_done_exit_zero (env : ExecEnv) (req : BzExecuteRequest)
    (op : Operation) (hok : executeModel env req = .ok op) :
    op.done = true ∧
    op.response = some { result := { exitCode := 0 }, cachedResult := false } := by
  unfold executeModel at hok
  cases hsha : env.getSha req with
  | error e => simp [hsha] at hok
  | ok shaLen =>
      simp only [hsha] at hok
      cases hconv : execReqToScoot env req shaLen.1 with
      | error e => simp [hconv] at hok
      | ok job =>
          simp only [hconv] at hok
          cases hval : env.validateJob job with
          | some e => simp [hval] at hok
          | none =>
              simp only [hval] at hok
              cases hsched : env.scheduleJob job with
              | error e => simp [hsched] at hok
              | ok id =>
                  simp only [hsched] at hok
                  cases hme : env.marshalEomOk with
                  | false => simp [hme] at hok
                  | true =>
                      cases hmr : env.marshalResOk with
                      | false => simp [hme, hmr] at hok
                      | true =>
                          simp only [hme, hmr, Bool.not_true, Bool.false_eq_true,
                            if_false, Except.ok.injEq] at hok
                          subst hok
                          exact ⟨rfl, rfl⟩

/-- Witness for C9_execute_done_exit_zero on the all-succeeding concrete
environment and request. -/
theorem C9_execute_witness :
    executeModel c9Env c9Req = .ok c9Op ∧
    c9Op.done = true ∧
    c9Op.response = some { result := { exitCode := 0 }, cachedResult := false } :=
  ⟨by rfl,
   (C9_execute_done_exit_zero c9Env c9Req c9Op (by rfl)).1,
   (C9_execute_done_exit_zero c9Env c9Req c9Op (by rfl)).2⟩

/-- Claim C10: for every FindMissingBlobs call that completes without a
store error, a requested digest is in the returned MissingBlobDigests
exactly when it was requested, its hash differs from the empty SHA, and
the store reports it absent — in particular an empty-SHA digest is never
included, even when no blob for it exists in the store. -/
theorem C10_find_missing_blobs (env : CasEnv) (ds : List Digest)
    (out : List Digest) (hok : findMissingBlobs env ds = .ok out) :
    ∀ d : Digest, d ∈ out ↔
      (d ∈ ds ∧ d.hash ≠ env.emptySha
        ∧ env.storeExists (env.storeName d) = .ok false) := by
  induction ds generalizing out with
  | nil =>
      simp only [findMissingBlobs, Except.ok.injEq] at hok
      subst hok
      simp
  | cons d0 rest ih =>
      by_cases hemp : d0.hash = env.emptySha
      · rw [findMissingBlobs, if_pos hemp] at hok
        have hrec := ih out hok
        intro d
        constructor
        · intro hd
          rcases (hrec d).mp hd with ⟨hmem, hne, hex⟩
          exact ⟨List.mem_cons_of_mem _ hmem, hne, hex⟩
        · rintro ⟨hmem, hne, hex⟩
          rcases List.mem_cons.mp hmem with h | h
          · subst h; exact absurd hemp hne
          · exact (hrec d).mpr ⟨h, hne, hex⟩
      · rw [findMissingBlobs, if_neg hemp] at hok
        cases hex0 : env.storeExists (env.storeName d0) with
        | error e => rw [hex0] at hok; cases hok
        | ok b =>
            rw [hex0] at hok
            cases b with
            | true =>
                have hrec := ih out hok
                intro d
                constructor
                · intro hd
                  rcases (hrec d).mp hd with ⟨hmem, hne, hex⟩
                  exact ⟨List.mem_cons_of_mem _ hmem, hne, hex⟩
                · rintro ⟨hmem, hne, hex⟩
                  rcases List.mem_cons.mp hmem with h | h
                  · subst h
                    rw [hex0] at hex
                    cases hex
                  · exact (hrec d).mpr ⟨h, hne, hex⟩
            | false =>
                cases hrec0 : findMissingBlobs env rest with
                | error e => rw [hrec0] at hok; cases hok
                | ok l =>
                    rw [hrec0] at hok
                    simp only [Except.map, Except.ok.injEq] at hok
                    subst hok
                    have hrec := ih l hrec0
                    intro d
                    constructor
                    · intro hd
                      rcases List.mem_cons.mp hd with h | h
                      · subst h
                        exact ⟨List.mem_cons_self _ _, hemp, hex0⟩
                      · rcases (hrec d).mp h with ⟨hmem, hne, hex⟩
                        exact ⟨List.mem_cons_of_mem _ hmem, hne, hex⟩
                    · rintro ⟨hmem, hne, hex⟩
                      rcases List.mem_cons.mp hmem with h | h
                      · subst h
                        exact List.mem_cons_self _ _
                      · exact List.mem_cons_of_mem _ ((hrec d).mpr ⟨h, hne, hex⟩)

/-- Witness for C10_find_missing_blobs: the concrete three-digest request
(empty SHA, present, absent), whose answer is exactly the absent digest,
instantiated at the absent digest. -/
theorem C10_find_missing_blobs_witness :
    (({ hash := "absent", sizeBytes := 2 } : Digest)
        ∈ ([{ hash := "absent", sizeBytes := 2 }] : List Digest)) ↔
      (({ hash := "absent", sizeBytes := 2 } : Digest) ∈ c10Ds ∧
        ({ hash := "absent", sizeBytes := 2 } : Digest).hash ≠ c10Env.emptySha ∧
        c10Env.storeExists (c10Env.storeName { hash := "absent", sizeBytes := 2 })
          = .ok false) :=
  C10_find_missing_blobs c10Env c10Ds [{ hash := "absent", sizeBytes := 2 }]
    (by rfl) { hash := "absent", sizeBytes := 2 }

end Scoot
